import Mathlib

/-!
Shallow embedding of the clawdbot-dashboard observational-memory core:
the interaction chunker and IPA evaluator (src/.openclaw/ipa/ipa_evaluator.py)
and the observational memory controller with its observer and reflector
fallbacks (src/.openclaw/observational_memory/).  Machine reals are embedded
as rationals; Python strings as Lean strings with explicit char-wise
primitives mirroring the Python operations used by the source.
-/

/-- Python `str.lower()`: char-wise lowercasing of the string. -/
def pyLower (s : String) : String := String.mk (s.data.map Char.toLower)

/-- Python `needle in hay` on strings: substring containment. -/
def pyContains (needle hay : String) : Bool := decide (needle.data <:+: hay.data)

/-- Python list slice `l[a:b]` (for `a ≤ b`; clamped at the list end). -/
def pySlice {α : Type} (l : List α) (a b : Nat) : List α := (l.drop a).take (b - a)

/-- Helper for `pySplitWs`: scan the characters, accumulating the current
word in reverse; whitespace flushes the word (empty runs produce nothing). -/
def splitWsAux : List Char → List Char → List String
  | [], acc => if acc.isEmpty then [] else [String.mk acc.reverse]
  | c :: rest, acc =>
    if c.isWhitespace then
      (if acc.isEmpty then splitWsAux rest [] else String.mk acc.reverse :: splitWsAux rest [])
    else splitWsAux rest (c :: acc)

/-- Python `str.split()` with no arguments: split on whitespace runs,
leading/trailing whitespace produces no empty words. -/
def pySplitWs (s : String) : List String := splitWsAux s.data []

/-- A timestamp, abstracted to the two projections the source uses:
`timestamp.date().isoformat()` and `timestamp.strftime("%H:%M")`. -/
structure Timestamp where
  dateIso : String
  hhmm : String
deriving DecidableEq, Inhabited

/-- A message dict: `role`, `content`, and an optional `timestamp` key
(`msg.get("timestamp", datetime.now())` supplies a default when absent). -/
structure Msg where
  role : String
  content : String
  timestamp : Option Timestamp
deriving DecidableEq

/-- Configuration of `InteractionChunker.__init__`: `min_chunk_size`,
`max_chunk_size` and the semantic keyword patterns. -/
structure ChunkCfg where
  minChunkSize : Nat
  maxChunkSize : Nat
  semanticPatterns : List (String × List String)

/-- An apostrophe character (U+0027), used inside default pattern strings. -/
def apos : String := String.singleton (Char.ofNat 39)

/-- The default `semantic_patterns` dict of `InteractionChunker.__init__`,
in declaration order. -/
def defaultSemanticPatterns : List (String × List String) :=
  [("question", ["?", "how", "what", "why", "can you", "help"]),
   ("explanation", ["because", "since", "the reason", "as a result"]),
   ("correction", ["no", "actually", "that" ++ apos ++ "s wrong", "not exactly"]),
   ("task", ["do this", "create", "write", "build", "implement"])]

/-- The default chunker configuration: `min_chunk_size=3`, `max_chunk_size=10`,
default patterns. -/
def defaultChunkCfg : ChunkCfg := ⟨3, 10, defaultSemanticPatterns⟩

/-- `InteractionChunk` dataclass. -/
structure InteractionChunk where
  chunkId : String
  startIdx : Nat
  endIdx : Nat
  messages : List Msg
  semanticType : String
  importance : ℚ
  timestamp : Timestamp
deriving Inhabited

/-- The concatenation `" ".join(str(m.get("content", "")) for m in messages)`. -/
def chunkText (messages : List Msg) : String :=
  String.intercalate " " (messages.map (fun m => m.content))

/-- `InteractionChunker._classify_semantic_type`: empty input is `"task"`;
otherwise count pattern hits per category over the lower-cased joined text and
take the first category attaining the maximal score (Python `max` over the
dict keys with `key=type_scores.get` keeps the earliest maximum); when the
pattern dict itself is empty the result is `"task"`. -/
def classifySemanticType (patterns : List (String × List String)) (messages : List Msg) : String :=
  match messages with
  | [] => "task"
  | _ =>
    let text := pyLower (chunkText messages)
    let typeScores := patterns.map (fun p => (p.1, (p.2.filter (fun pat => pyContains pat text)).length))
    match typeScores with
    | [] => "task"
    | s :: rest => (rest.foldl (fun best cur => if best.2 < cur.2 then cur else best) s).1

/-- The look-ahead loop of `InteractionChunker._determine_chunk_size`:
for each index `j` in the scan range, classify the single message at `j`;
on a divergence from the first message, set the size to `j - start_idx`,
stopping there when that is at least `min_chunk_size`. -/
def snapScan (cfg : ChunkCfg) (messages : List Msg) (startIdx : Nat) (currentType : String) :
    List Nat → Nat → Nat
  | [], size => size
  | j :: rest, size =>
    let nextType := classifySemanticType cfg.semanticPatterns (pySlice messages j (j + 1))
    if nextType ≠ currentType then
      (if cfg.minChunkSize ≤ j - startIdx then j - startIdx
       else snapScan cfg messages startIdx currentType rest (j - startIdx))
    else snapScan cfg messages startIdx currentType rest size

/-- `InteractionChunker._determine_chunk_size`. -/
def determineChunkSize (cfg : ChunkCfg) (messages : List Msg) (startIdx : Nat) : Nat :=
  let remaining := messages.length - startIdx
  let size := min cfg.maxChunkSize (max cfg.minChunkSize remaining)
  if startIdx + size < messages.length then
    let currentType := classifySemanticType cfg.semanticPatterns (pySlice messages startIdx (startIdx + 1))
    snapScan cfg messages startIdx currentType
      (List.range' (startIdx + 1) (min (startIdx + size) messages.length - (startIdx + 1))) size
  else size

/-- `InteractionChunker._calculate_importance`:
`0.5 + ((total - idx) / total) * 0.5`. -/
def calculateImportance (idx total : Nat) : ℚ :=
  1/2 + (((total - idx : Nat) : ℚ) / (total : ℚ)) * (1/2)

/-- The `while i < len(messages)` loop of `InteractionChunker.chunk`, with a
fuel argument bounding the number of iterations (the loop advances by the
determined chunk size each step; `messages.length` fuel suffices whenever
every step is positive).  `cnt` is `len(chunks)` at append time. -/
def chunkAux (cfg : ChunkCfg) (messages : List Msg) (threadId : String) (now : Timestamp) :
    Nat → Nat → Nat → List InteractionChunk
  | 0, _, _ => []
  | fuel + 1, i, cnt =>
    if i < messages.length then
      let size := determineChunkSize cfg messages i
      { chunkId := threadId ++ "_chunk_" ++ toString cnt
        startIdx := i
        endIdx := i + size
        messages := pySlice messages i (i + size)
        semanticType := classifySemanticType cfg.semanticPatterns (pySlice messages i (i + size))
        importance := calculateImportance i messages.length
        timestamp := now } :: chunkAux cfg messages threadId now fuel (i + size) (cnt + 1)
    else []

/-- `InteractionChunker.chunk`.  `now` stands for `datetime.now()`. -/
def chunk (cfg : ChunkCfg) (messages : List Msg) (threadId : String) (now : Timestamp) :
    List InteractionChunk :=
  chunkAux cfg messages threadId now messages.length 0 0

/-- `ChunkEvaluationResult` dataclass. -/
structure ChunkEvaluationResult where
  chunkId : String
  creditAssigned : ℚ
  reconstructionQuality : ℚ
  temporalRelevance : ℚ
  overallScore : ℚ

/-- `IPAEvaluator._measure_temporal_relevance`: the fixed relevance table
with `.get` default `0.7` for unrecognized types. -/
def temporalRelevance (c : InteractionChunk) : ℚ :=
  if c.semanticType = "task" then 1
  else if c.semanticType = "correction" then 9/10
  else if c.semanticType = "explanation" then 7/10
  else if c.semanticType = "question" then 1/2
  else 7/10

/-- `IPAEvaluator._measure_reconstruction_quality`.  The parameter
`paomContext` is `none` when `self.paom` is `None` (the mock branch) and
`some ctx` when an attached memory renders context `ctx` for the thread. -/
def measureReconstructionQuality (paomContext : Option String) (c : InteractionChunk) : ℚ :=
  match paomContext with
  | none => 85/100 + c.importance * (1/10)
  | some ctx =>
    let text := chunkText c.messages
    if pyContains text ctx then 1
    else
      let chunkWords := (pySplitWs (pyLower text)).dedup
      let contextWords := (pySplitWs (pyLower ctx)).dedup
      let overlap := ((chunkWords.filter (fun w => w ∈ contextWords)).length : ℚ) /
        ((max chunkWords.length 1 : Nat) : ℚ)
      overlap * (9/10)

/-- `IPAEvaluator._evaluate_chunk`. -/
def evaluateChunk (paomContext : Option String) (c : InteractionChunk) : ChunkEvaluationResult :=
  let reconstructionQuality := measureReconstructionQuality paomContext c
  let temporal := temporalRelevance c
  let creditAssigned := c.importance * reconstructionQuality
  { chunkId := c.chunkId
    creditAssigned := creditAssigned
    reconstructionQuality := reconstructionQuality
    temporalRelevance := temporal
    overallScore := creditAssigned * (1/2) + temporal * (3/10) + reconstructionQuality * (1/5) }

/-- `IPAEvaluator._calculate_overall_score`: credit-weighted average times 100,
guarded by emptiness and by `total_importance > 0`. -/
def calculateOverallScore (results : List ChunkEvaluationResult)
    (chunks : List InteractionChunk) : ℚ :=
  if results.isEmpty then 0
  else
    let totalCredit := (results.map (fun r => r.creditAssigned)).sum
    let totalImportance := (chunks.map (fun c => c.importance)).sum
    if 0 < totalImportance then (totalCredit / totalImportance) * 100 else 0

/-- `IPAEvaluator.evaluate_thread`: chunk, evaluate each chunk, aggregate. -/
def evaluateThread (cfg : ChunkCfg) (paomContext : Option String) (messages : List Msg)
    (threadId : String) (now : Timestamp) : List ChunkEvaluationResult × ℚ :=
  let chunks := chunk cfg messages threadId now
  let results := chunks.map (evaluateChunk paomContext)
  (results, calculateOverallScore results chunks)

/-- Modelled from the spec: `types.py` is not under `src/`; priority is the
three fixed levels RED, YELLOW, GREEN with RED the highest retention
priority. -/
inductive PriorityLevel where
  | RED
  | YELLOW
  | GREEN
deriving DecidableEq

/-- The emoji `.value` of a priority level, as used by the formatter. -/
def PriorityLevel.value : PriorityLevel → String
  | .RED => "🔴"
  | .YELLOW => "🟡"
  | .GREEN => "🟢"

/-- Modelled from the spec: `types.py` is not under `src/`; an Observation is
an anchor timestamp (always set), an optional referenced timestamp (never set
by the deterministic fallbacks in `src/`), a priority and content text. -/
structure Observation where
  timestamp : Timestamp
  referencedTimestamp : Option Timestamp
  priority : PriorityLevel
  content : String
deriving DecidableEq

/-- Modelled from the spec: `types.py` is not under `src/`; the config carries
token-equivalent thresholds (only the reflection threshold is read by the code
under `src/`). -/
structure ObservationConfig where
  observationThreshold : Nat
  reflectionThreshold : Nat

/-- Modelled from the spec: `types.py` is not under `src/`; the per-thread
record is an ordered observation sequence plus optional current-task and
suggested-response texts. -/
structure ObservationalMemoryRecord where
  observations : List Observation
  currentTask : Option String
  suggestedResponse : Option String
deriving DecidableEq

/-- The per-message body of `ObserverAgent._simple_extraction`: only user
messages are scanned; family keywords give one RED observation, else work
keywords give one YELLOW observation; `now` stands for the `datetime.now()`
default used when the message has no timestamp. -/
def extractOne (now : Timestamp) (msg : Msg) : List Observation :=
  if msg.role = "user" then
    let content := msg.content
    let timestamp := msg.timestamp.getD now
    if pyContains "kids" (pyLower content) || pyContains "children" (pyLower content) then
      [{ timestamp := timestamp
         referencedTimestamp := none
         priority := PriorityLevel.RED
         content := "User mentioned family (children)" }]
    else if pyContains "work" (pyLower content) || pyContains "job" (pyLower content) then
      [{ timestamp := timestamp
         referencedTimestamp := none
         priority := PriorityLevel.YELLOW
         content := "User discussed work situation" }]
    else []
  else []

/-- `ObserverAgent._simple_extraction`: the message loop. -/
def simpleExtraction (messages : List Msg) (now : Timestamp) : List Observation :=
  messages.flatMap (extractOne now)

/-- `ObserverAgent.extract_observations`: delegates to the simple extraction
and returns empty current-task and suggested-response strings; the
`existing_observations` argument is accepted and unused. -/
def extractObservations (messages : List Msg) (existingObservations : String) (now : Timestamp) :
    List Observation × String × String :=
  let _ := existingObservations
  (simpleExtraction messages now, "", "")

/-- `ReflectorAgent._simple_condensation`: keep RED and YELLOW observations,
and when any were kept append one RED summary observation anchored to the
first input observation (`now` stands for the dead `datetime.now()` branch). -/
def simpleCondensation (observations : List Observation) (now : Timestamp) : List Observation :=
  let condensed := observations.filter
    (fun o => o.priority = PriorityLevel.RED ∨ o.priority = PriorityLevel.YELLOW)
  if condensed.isEmpty then condensed
  else
    condensed ++ [{ timestamp := match observations with | [] => now | o :: _ => o.timestamp
                    referencedTimestamp := none
                    priority := PriorityLevel.RED
                    content := "Memory consolidated: " ++ toString condensed.length ++
                      " key observations preserved" }]

/-- `ReflectorAgent.reflect`. -/
def reflect (observations : List Observation) (now : Timestamp) : List Observation :=
  simpleCondensation observations now

/-- Python truthiness of an optional string (`None` and `""` are falsy). -/
def pyTruthy : Option String → Bool
  | none => false
  | some s => !(s == "")

/-- `ObservationalMemory._format_observations`: group by calendar date,
dates ascending, each line `* <emoji> (<HH:MM>) <content>`. -/
def formatObservations (observations : List Observation) : String :=
  if observations.isEmpty then ""
  else
    let keys := (observations.map (fun o => o.timestamp.dateIso)).dedup
    let sortedKeys := List.insertionSort (fun a b => a ≤ b) keys
    let lines := sortedKeys.flatMap (fun k =>
      ("Date: " ++ k) ::
        ((observations.filter (fun o => o.timestamp.dateIso = k)).map (fun o =>
          "* " ++ o.priority.value ++ " (" ++ o.timestamp.hhmm ++ ") " ++ o.content)))
    String.intercalate "\n" lines

/-- The `ObservationalMemory` object state: the config fixed at construction,
and its token counter.  Modelled from the spec: `token_counter.py` is not
under `src/`; `count_observations` is any pure deterministic function, carried
here as a field so that every result below holds for every counter. -/
structure ObservationalMemory where
  config : ObservationConfig
  tokenCount : List Observation → Nat

/-- `ObservationalMemory.get_observation_record`: storage is not integrated;
the method returns `None` for every thread id. -/
def getObservationRecord (m : ObservationalMemory) (threadId : String) :
    Option ObservationalMemoryRecord :=
  let _ := m
  let _ := threadId
  none

/-- `ObservationalMemory.process_messages`. -/
def processMessages (m : ObservationalMemory) (threadId : String) (messages : List Msg)
    (existingObservations : String) (now : Timestamp) : ObservationalMemoryRecord :=
  let _ := existingObservations
  let record := match getObservationRecord m threadId with
    | none => ({ observations := [], currentTask := none, suggestedResponse := none } :
        ObservationalMemoryRecord)
    | some r => r
  let existingObsText := formatObservations record.observations
  let extracted := extractObservations messages existingObsText now
  let newObservations := extracted.1
  let currentTask := extracted.2.1
  let suggested := extracted.2.2
  let combined := record.observations ++ newObservations
  let combined2 := if m.config.reflectionThreshold < m.tokenCount combined
    then reflect combined now else combined
  { observations := combined2
    currentTask := if pyTruthy (some currentTask) then some currentTask else record.currentTask
    suggestedResponse := if pyTruthy (some suggested) then some suggested else record.suggestedResponse }

/-- `ObservationalMemory.get_context`. -/
def getContext (m : ObservationalMemory) (threadId : String) : String :=
  match getObservationRecord m threadId with
  | none => "No observations yet."
  | some record =>
    let context := formatObservations record.observations
    let context := if pyTruthy record.suggestedResponse then
        context ++ "\n\n<Suggested Response>\n" ++ record.suggestedResponse.getD "" ++ "\n"
      else context
    if pyTruthy record.currentTask then
      context ++ "\n\n<Current Task>\n" ++ record.currentTask.getD "" ++ "\n"
    else context

/-- A value of the Python stats dict returned by `get_stats`. -/
inductive StatValue where
  | natV (n : Nat)
  | boolV (b : Bool)
  | noneV
deriving DecidableEq

/-- `ObservationalMemory.get_stats`: the dict as an association list in
insertion order. -/
def getStats (m : ObservationalMemory) (threadId : String) : List (String × StatValue) :=
  match getObservationRecord m threadId with
  | none => [("total_observations", StatValue.natV 0)]
  | some record =>
    [("total_observations", StatValue.natV record.observations.length),
     ("last_observed_at", StatValue.noneV),
     ("has_current_task", StatValue.boolV (pyTruthy record.currentTask))]

/-- `ObservationalMemory.force_reflection`.  The record-present branch of the
source raises `NameError` (it reads the undefined name `recorded` while
building its result string); it is embedded as an `Except.error`. -/
def forceReflection (m : ObservationalMemory) (threadId : String) : Except String String :=
  match getObservationRecord m threadId with
  | none => Except.ok "No observations to reflect."
  | some _ => Except.error "NameError: name recorded is not defined"

/-- A fixed concrete timestamp for witnesses and counterexamples. -/
def ts0 : Timestamp := ⟨"2026-01-01", "12:00"⟩

/-- A concrete `ObservationalMemory` instance: thresholds 10 and 20, counter
counting observations. -/
def memFix : ObservationalMemory := ⟨⟨10, 20⟩, fun l => l.length⟩

/-- A single one-message input for the chunker. -/
def msgsOne : List Msg := [⟨"user", "x", none⟩]

/-- Twenty identical messages, chunked into two chunks of ten by the default
configuration. -/
def msgsTwenty : List Msg := List.replicate 20 (⟨"user", "x", none⟩ : Msg)

/-- Eleven messages whose second message classifies differently from the
first, forcing a boundary snap at offset 1. -/
def msgsSnap : List Msg :=
  ⟨"user", "?", none⟩ :: ⟨"user", "because", none⟩ ::
    List.replicate 9 (⟨"user", "?", none⟩ : Msg)

/-- The RED-or-YELLOW filter of `ReflectorAgent._simple_condensation`. -/
def retainedObservations (observations : List Observation) : List Observation :=
  observations.filter
    (fun o => o.priority = PriorityLevel.RED ∨ o.priority = PriorityLevel.YELLOW)

/-- The synthesized consolidation observation appended by the Reflector
fallback: RED, anchored to the first input observation, stating how many
observations were preserved. -/
def consolidationObservation (observations : List Observation) (now : Timestamp)
    (kept : Nat) : Observation :=
  { timestamp := match observations with | [] => now | o :: _ => o.timestamp
    referencedTimestamp := none
    priority := PriorityLevel.RED
    content := "Memory consolidated: " ++ toString kept ++ " key observations preserved" }

/-- A chunk holding one user message with empty content: its concatenated
chunk text is the empty string. -/
def emptyTextChunk : InteractionChunk := ⟨"c0", 0, 1, [⟨"user", "", none⟩], "task", 1, ts0⟩

/-- The number of patterns of one category that occur in the text:
`sum(1 for pattern in patterns if pattern in text)`. -/
def categoryScore (text : String) (pats : List String) : Nat :=
  (pats.filter (fun pat => pyContains pat text)).length

/-- One step of Python `max(type_scores, key=type_scores.get)`: keep the
current best unless the next entry scores strictly higher. -/
def pyMaxStep (best cur : String × Nat) : String × Nat :=
  if best.2 < cur.2 then cur else best

/-- The tiling invariant of the chunk loop from position `i`: each chunk
starts where the loop stands, is non-empty, the next chunk starts at its end
index, and the final chunk's end index is `max len (start + minC)` (the
candidate size `min(max, max(min, remaining))` overshoots `len` exactly when
the remainder is shorter than `minC`). -/
def TilesFrom (len minC : Nat) : Nat → List InteractionChunk → Prop
  | i, [] => len ≤ i
  | i, c :: rest =>
    c.startIdx = i ∧ i < c.endIdx ∧ (rest = [] → c.endIdx = max len (i + minC)) ∧
      TilesFrom len minC c.endIdx rest

theorem pyContains_iff {n h : String} : pyContains n h = true ↔ n.data <:+: h.data := by
  simp [pyContains]

theorem pyContains_nil (h : String) : pyContains "" h = true := by
  rw [pyContains_iff]
  exact List.nil_infix

/-- C9 (amended): for a thread id with no record, reads do not fail:
`get_context` returns the fixed sentinel, `get_stats` returns the zero-value
stats dict containing only `total_observations = 0` (no `has_current_task`
key in this branch), and `force_reflection` returns the
nothing-to-reflect no-op result rather than an error. -/
theorem C9_missing_record_reads (m : ObservationalMemory) (threadId : String)
    (h : getObservationRecord m threadId = none) :
    getContext m threadId = "No observations yet." ∧
    getStats m threadId = [("total_observations", StatValue.natV 0)] ∧
    forceReflection m threadId = Except.ok "No observations to reflect." := by
  refine ⟨?_, ?_, ?_⟩ <;> simp [getContext, getStats, forceReflection, h]

/-- Witness for C9 at a concrete memory instance and thread id. -/
theorem C9_missing_record_reads_witness :
    getContext memFix "thread-1" = "No observations yet." ∧
    getStats memFix "thread-1" = [("total_observations", StatValue.natV 0)] ∧
    forceReflection memFix "thread-1" = Except.ok "No observations to reflect." :=
  C9_missing_record_reads memFix "thread-1" rfl

/-- Counterexample to C9 as stated: the zero-value stats dict returned for a
missing record does not contain a `has_current_task = false` entry. -/
theorem C9_counterexample :
    ¬ (("has_current_task", StatValue.boolV false) ∈ getStats memFix "thread-1") := by
  decide

/-- C10: `get_observation_record` returns `None` for every thread id, so no
state persists at the public interface: `get_context` always returns the
sentinel, `get_stats` always returns `{"total_observations": 0}`, and every
`process_messages` call builds its returned record from an empty record plus
only the messages passed in that call. -/
theorem C10_stateless (m : ObservationalMemory) (threadId : String) (messages : List Msg)
    (existingObservations : String) (now : Timestamp) :
    getObservationRecord m threadId = none ∧
    getContext m threadId = "No observations yet." ∧
    getStats m threadId = [("total_observations", StatValue.natV 0)] ∧
    processMessages m threadId messages existingObservations now =
      { observations :=
          (if m.config.reflectionThreshold < m.tokenCount (simpleExtraction messages now)
           then reflect (simpleExtraction messages now) now
           else simpleExtraction messages now)
        currentTask := none
        suggestedResponse := none } := by
  refine ⟨rfl, rfl, rfl, ?_⟩
  simp [processMessages, getObservationRecord, extractObservations, pyTruthy]

theorem reflect_eq (observations : List Observation) (now : Timestamp) :
    reflect observations now =
      if (retainedObservations observations).isEmpty then []
      else retainedObservations observations ++
        [consolidationObservation observations now (retainedObservations observations).length] := by
  simp only [reflect, simpleCondensation, retainedObservations, consolidationObservation]
  split
  · next h => exact List.isEmpty_iff.mp h
  · next h => rfl

/-- C7: the Reflector deterministic fallback returns exactly the RED and
YELLOW observations of the input in input order, followed by one synthesized
RED observation stating how many were preserved whenever at least one was
retained (and the empty list when none were); no GREEN observation appears in
the output, every RED input observation is kept, and the output is no longer
than the input whenever the input contains a GREEN item. -/
theorem C7_reflector_fallback (observations : List Observation) (now : Timestamp) :
    (retainedObservations observations = [] → reflect observations now = []) ∧
    (retainedObservations observations ≠ [] →
      reflect observations now = retainedObservations observations ++
        [consolidationObservation observations now (retainedObservations observations).length]) ∧
    (∀ o ∈ reflect observations now, o.priority ≠ PriorityLevel.GREEN) ∧
    (∀ o ∈ observations, o.priority = PriorityLevel.RED → o ∈ reflect observations now) ∧
    ((∃ o ∈ observations, o.priority = PriorityLevel.GREEN) →
      (reflect observations now).length ≤ observations.length) := by
  have hre := reflect_eq observations now
  refine ⟨?_, ?_, ?_, ?_, ?_⟩
  · intro h
    simp [hre, h]
  · intro h
    rw [hre, if_neg (by simpa [List.isEmpty_iff] using h)]
  · intro o ho
    rw [hre] at ho
    by_cases h : (retainedObservations observations).isEmpty
    · simp [h] at ho
    · rw [if_neg h] at ho
      rcases List.mem_append.mp ho with h1 | h1
      · have := (List.mem_filter.mp h1).2
        simp only [decide_eq_true_eq] at this
        rcases this with h2 | h2 <;> simp [h2]
      · simp only [List.mem_singleton] at h1
        simp [h1, consolidationObservation]
  · intro o ho hred
    have hmem : o ∈ retainedObservations observations := by
      refine List.mem_filter.mpr ⟨ho, ?_⟩
      simp [hred]
    rw [hre, if_neg (by simpa [List.isEmpty_iff] using List.ne_nil_of_mem hmem)]
    exact List.mem_append_left _ hmem
  · rintro ⟨o, ho, hgreen⟩
    rw [hre]
    by_cases h : (retainedObservations observations).isEmpty
    · simp [h]
    · rw [if_neg h]
      have hlt : (retainedObservations observations).length < observations.length := by
        refine List.length_filter_lt_length_iff_exists.mpr ⟨o, ho, ?_⟩
        simp [hgreen]
      simp only [List.length_append, List.length_singleton]
      omega

/-- Witness for C7: one GREEN and one RED observation; the GREEN one is
dropped and a consolidation observation is appended. -/
theorem C7_reflector_fallback_witness :
    (retainedObservations [⟨ts0, none, PriorityLevel.GREEN, "g"⟩] = [] →
      reflect [⟨ts0, none, PriorityLevel.GREEN, "g"⟩] ts0 = []) ∧
    (retainedObservations [⟨ts0, none, PriorityLevel.GREEN, "g"⟩] ≠ [] →
      reflect [⟨ts0, none, PriorityLevel.GREEN, "g"⟩] ts0 =
        retainedObservations [⟨ts0, none, PriorityLevel.GREEN, "g"⟩] ++
          [consolidationObservation [⟨ts0, none, PriorityLevel.GREEN, "g"⟩] ts0
            (retainedObservations [⟨ts0, none, PriorityLevel.GREEN, "g"⟩]).length]) ∧
    (∀ o ∈ reflect [⟨ts0, none, PriorityLevel.GREEN, "g"⟩] ts0,
      o.priority ≠ PriorityLevel.GREEN) ∧
    (∀ o ∈ [(⟨ts0, none, PriorityLevel.GREEN, "g"⟩ : Observation)],
      o.priority = PriorityLevel.RED → o ∈ reflect [⟨ts0, none, PriorityLevel.GREEN, "g"⟩] ts0) ∧
    ((∃ o ∈ [(⟨ts0, none, PriorityLevel.GREEN, "g"⟩ : Observation)],
        o.priority = PriorityLevel.GREEN) →
      (reflect [⟨ts0, none, PriorityLevel.GREEN, "g"⟩] ts0).length ≤
        [(⟨ts0, none, PriorityLevel.GREEN, "g"⟩ : Observation)].length) :=
  C7_reflector_fallback [⟨ts0, none, PriorityLevel.GREEN, "g"⟩] ts0

theorem pyContains_pyLower_of_pyContains {needle hay : String}
    (hfix : needle.data.map Char.toLower = needle.data)
    (h : pyContains needle hay = true) : pyContains needle (pyLower hay) = true := by
  rw [pyContains_iff] at h ⊢
  have hmap := List.IsInfix.map Char.toLower h
  rw [hfix] at hmap
  exact hmap

theorem pyContains_trans {n₁ n₂ hay : String} (h12 : n₁.data <:+: n₂.data)
    (h : pyContains n₂ hay = true) : pyContains n₁ hay = true := by
  rw [pyContains_iff] at h ⊢
  exact h12.trans h

/-- C8: in the Observer fallback extraction, only `"user"` messages produce
observations, each message produces at most one observation, a user message
whose content contains `"my kids"` produces exactly one RED family
observation anchored to that message's own timestamp, and a user message
matching the work keywords but none of the family keywords produces exactly
one YELLOW observation. -/
theorem C8_observer_fallback (messages : List Msg) (now : Timestamp) :
    simpleExtraction messages now = messages.flatMap (extractOne now) ∧
    (∀ m : Msg, m.role ≠ "user" → extractOne now m = []) ∧
    (∀ m : Msg, (extractOne now m).length ≤ 1) ∧
    (∀ m : Msg, m.role = "user" → pyContains "my kids" m.content = true →
      extractOne now m = [⟨m.timestamp.getD now, none, PriorityLevel.RED,
        "User mentioned family (children)"⟩]) ∧
    (∀ m : Msg, m.role = "user" →
      (pyContains "work" (pyLower m.content) || pyContains "job" (pyLower m.content)) = true →
      pyContains "kids" (pyLower m.content) = false →
      pyContains "children" (pyLower m.content) = false →
      extractOne now m = [⟨m.timestamp.getD now, none, PriorityLevel.YELLOW,
        "User discussed work situation"⟩]) := by
  refine ⟨rfl, ?_, ?_, ?_, ?_⟩
  · intro m h
    simp [extractOne, h]
  · intro m
    simp only [extractOne]
    split
    · split
      · simp
      · split <;> simp
    · simp
  · intro m hrole hkids
    have hlow : pyContains "my kids" (pyLower m.content) = true :=
      pyContains_pyLower_of_pyContains (by decide) hkids
    have h1 : pyContains "kids" (pyLower m.content) = true :=
      pyContains_trans (by decide) hlow
    simp [extractOne, hrole, h1]
  · intro m hrole hwork hk hc
    simp [extractOne, hrole, hk, hc, hwork]

/-- Witness for C8: a concrete user message containing `"my kids"` yields
exactly one RED family observation anchored to its own timestamp. -/
theorem C8_observer_fallback_witness :
    extractOne ts0 ⟨"user", "take my kids to school", some ts0⟩ =
      [⟨ts0, none, PriorityLevel.RED, "User mentioned family (children)"⟩] := by
  have h := (C8_observer_fallback [] ts0).2.2.2.1
    ⟨"user", "take my kids to school", some ts0⟩ rfl (by decide)
  simpa using h

/-- C5 (amended): against an attached memory rendering context `ctx`,
`reconstruction_quality` is `1.0` whenever the chunk's concatenated text
occurs in `ctx` — in particular always when that text is empty, since the
empty string occurs in every context — and otherwise equals
`0.9 * (|chunk_words ∩ context_words| / max(|chunk_words|, 1))`; the result
lies in `[0, 1]` for arbitrary chunk text. -/
theorem C5_reconstruction_quality (ctx : String) (c : InteractionChunk) :
    (pyContains (chunkText c.messages) ctx = true →
      measureReconstructionQuality (some ctx) c = 1) ∧
    (pyContains (chunkText c.messages) ctx = false →
      measureReconstructionQuality (some ctx) c =
        (9/10) * ((((pySplitWs (pyLower (chunkText c.messages))).dedup.filter
            (fun w => w ∈ (pySplitWs (pyLower ctx)).dedup)).length : ℚ) /
          ((max (pySplitWs (pyLower (chunkText c.messages))).dedup.length 1 : Nat) : ℚ))) ∧
    (chunkText c.messages = "" → measureReconstructionQuality (some ctx) c = 1) ∧
    0 ≤ measureReconstructionQuality (some ctx) c ∧
    measureReconstructionQuality (some ctx) c ≤ 1 := by
  have hfalse : pyContains (chunkText c.messages) ctx = false →
      measureReconstructionQuality (some ctx) c =
        (9/10) * ((((pySplitWs (pyLower (chunkText c.messages))).dedup.filter
            (fun w => w ∈ (pySplitWs (pyLower ctx)).dedup)).length : ℚ) /
          ((max (pySplitWs (pyLower (chunkText c.messages))).dedup.length 1 : Nat) : ℚ)) := by
    intro h
    simp only [measureReconstructionQuality, h, Bool.false_eq_true, if_false]
    ring
  refine ⟨?_, hfalse, ?_, ?_⟩
  · intro h
    simp [measureReconstructionQuality, h]
  · intro h
    have hc : pyContains (chunkText c.messages) ctx = true := by
      rw [h]; exact pyContains_nil ctx
    simp [measureReconstructionQuality, hc]
  · by_cases h : pyContains (chunkText c.messages) ctx = true
    · simp [measureReconstructionQuality, h]
    · have h' : pyContains (chunkText c.messages) ctx = false := by
        simpa using h
      rw [hfalse h']
      have hb1 : (1 : ℚ) ≤ ((max (pySplitWs (pyLower (chunkText c.messages))).dedup.length 1 : Nat) : ℚ) := by
        exact_mod_cast Nat.le_max_right _ 1
      have hb0 : (0 : ℚ) < ((max (pySplitWs (pyLower (chunkText c.messages))).dedup.length 1 : Nat) : ℚ) := by
        linarith
      have hab : (((pySplitWs (pyLower (chunkText c.messages))).dedup.filter
            (fun w => w ∈ (pySplitWs (pyLower ctx)).dedup)).length : ℚ) ≤
          ((max (pySplitWs (pyLower (chunkText c.messages))).dedup.length 1 : Nat) : ℚ) := by
        have h1 : ((pySplitWs (pyLower (chunkText c.messages))).dedup.filter
            (fun w => w ∈ (pySplitWs (pyLower ctx)).dedup)).length ≤
            max (pySplitWs (pyLower (chunkText c.messages))).dedup.length 1 :=
          le_trans (List.length_filter_le _ _) (Nat.le_max_left _ 1)
        exact_mod_cast h1
      have hdiv0 : (0 : ℚ) ≤ (((pySplitWs (pyLower (chunkText c.messages))).dedup.filter
            (fun w => w ∈ (pySplitWs (pyLower ctx)).dedup)).length : ℚ) /
          ((max (pySplitWs (pyLower (chunkText c.messages))).dedup.length 1 : Nat) : ℚ) :=
        div_nonneg (Nat.cast_nonneg _) (le_of_lt hb0)
      have hdiv1 : (((pySplitWs (pyLower (chunkText c.messages))).dedup.filter
            (fun w => w ∈ (pySplitWs (pyLower ctx)).dedup)).length : ℚ) /
          ((max (pySplitWs (pyLower (chunkText c.messages))).dedup.length 1 : Nat) : ℚ) ≤ 1 :=
        (div_le_one hb0).mpr hab
      constructor
      · nlinarith
      · nlinarith

/-- Counterexample to C5 as stated: a chunk whose concatenated text is empty
gets reconstruction quality `1.0` (the verbatim branch fires, because the
empty string occurs in every context), not `0.0`. -/
theorem C5_counterexample :
    chunkText emptyTextChunk.messages = "" ∧
    measureReconstructionQuality (some "hello") emptyTextChunk = 1 ∧
    (1 : ℚ) ≠ 0 := by
  refine ⟨rfl, ?_, by norm_num⟩
  have h : pyContains (chunkText emptyTextChunk.messages) "hello" = true := by decide
  simp [measureReconstructionQuality, h]

/-- Witness for C5: a chunk whose text occurs verbatim in the context gets
reconstruction quality `1.0`. -/
theorem C5_reconstruction_quality_witness :
    measureReconstructionQuality (some "alpha beta")
      ⟨"c1", 0, 1, [⟨"user", "beta", none⟩], "task", 1, ts0⟩ = 1 :=
  (C5_reconstruction_quality "alpha beta"
    ⟨"c1", 0, 1, [⟨"user", "beta", none⟩], "task", 1, ts0⟩).1 (by decide)

theorem foldl_pyMaxStep_first (rest : List (String × Nat)) :
    ∀ s : String × Nat,
      ∃ pre post,
        s :: rest = pre ++ (List.foldl pyMaxStep s rest) :: post ∧
        (∀ x ∈ pre, x.2 < (List.foldl pyMaxStep s rest).2) ∧
        (∀ x ∈ s :: rest, x.2 ≤ (List.foldl pyMaxStep s rest).2) := by
  induction rest with
  | nil =>
    intro s
    exact ⟨[], [], rfl, by simp, by simp⟩
  | cons c rest ih =>
    intro s
    simp only [List.foldl_cons]
    by_cases h : s.2 < c.2
    · rw [show pyMaxStep s c = c from if_pos h]
      obtain ⟨pre, post, hdec, hpre, hall⟩ := ih c
      refine ⟨s :: pre, post, ?_, ?_, ?_⟩
      · rw [List.cons_append, ← hdec]
      · intro x hx
        rcases List.mem_cons.mp hx with rfl | hx
        · exact lt_of_lt_of_le h (hall c (List.mem_cons_self c rest))
        · exact hpre x hx
      · intro x hx
        rcases List.mem_cons.mp hx with rfl | hx
        · exact le_of_lt (lt_of_lt_of_le h (hall c (List.mem_cons_self c rest)))
        · exact hall x hx
    · rw [show pyMaxStep s c = s from if_neg h]
      have hcs : c.2 ≤ s.2 := Nat.le_of_not_lt h
      obtain ⟨pre, post, hdec, hpre, hall⟩ := ih s
      cases pre with
      | nil =>
        rw [List.nil_append] at hdec
        have hs : s = List.foldl pyMaxStep s rest := (List.cons.inj hdec).1
        have hrest : rest = post := (List.cons.inj hdec).2
        refine ⟨[], c :: post, ?_, by simp, ?_⟩
        · rw [List.nil_append, ← hs, ← hrest]
        · intro x hx
          rcases List.mem_cons.mp hx with rfl | hx
          · exact hall x (List.mem_cons_self x rest)
          · rcases List.mem_cons.mp hx with rfl | hx
            · exact le_trans hcs (hall s (List.mem_cons_self s rest))
            · exact hall x (List.mem_cons_of_mem s hx)
      | cons p pre₂ =>
        rw [List.cons_append] at hdec
        have hsp : s = p := (List.cons.inj hdec).1
        have hrest : rest = pre₂ ++ List.foldl pyMaxStep s rest :: post :=
          (List.cons.inj hdec).2
        refine ⟨s :: c :: pre₂, post, ?_, ?_, ?_⟩
        · rw [List.cons_append, List.cons_append, ← hrest]
        · intro x hx
          rcases List.mem_cons.mp hx with rfl | hx
          · have hxp := hpre p (List.mem_cons_self p pre₂)
            rw [← hsp] at hxp
            exact hxp
          · rcases List.mem_cons.mp hx with rfl | hx
            · refine lt_of_le_of_lt hcs ?_
              have hxp := hpre p (List.mem_cons_self p pre₂)
              rw [← hsp] at hxp
              exact hxp
            · exact hpre x (List.mem_cons_of_mem p hx)
        · intro x hx
          rcases List.mem_cons.mp hx with rfl | hx
          · exact hall x (List.mem_cons_self x rest)
          · rcases List.mem_cons.mp hx with rfl | hx
            · exact le_trans hcs (hall s (List.mem_cons_self s rest))
            · exact hall x (List.mem_cons_of_mem s hx)

theorem classify_argmax (patterns : List (String × List String)) (p0 : String × List String)
    (ps : List (String × List String)) (hp : patterns = p0 :: ps)
    (m0 : Msg) (ms' : List Msg) :
    ∃ sc pre post,
      patterns.map (fun p => (p.1, categoryScore (pyLower (chunkText (m0 :: ms'))) p.2)) =
        pre ++ (classifySemanticType patterns (m0 :: ms'), sc) :: post ∧
      (∀ x ∈ pre, x.2 < sc) ∧
      (∀ x ∈ patterns.map
          (fun p => (p.1, categoryScore (pyLower (chunkText (m0 :: ms'))) p.2)), x.2 ≤ sc) := by
  subst hp
  have hstep : (fun (best cur : String × Nat) => if best.2 < cur.2 then cur else best) =
      pyMaxStep := rfl
  have hcl : classifySemanticType (p0 :: ps) (m0 :: ms') =
      (List.foldl pyMaxStep
        (p0.1, categoryScore (pyLower (chunkText (m0 :: ms'))) p0.2)
        (ps.map (fun p => (p.1, categoryScore (pyLower (chunkText (m0 :: ms'))) p.2)))).1 := by
    simp only [classifySemanticType, List.map_cons, categoryScore, hstep]
  obtain ⟨pre, post, hdec, hpre, hall⟩ := foldl_pyMaxStep_first
    (ps.map (fun p => (p.1, categoryScore (pyLower (chunkText (m0 :: ms'))) p.2)))
    (p0.1, categoryScore (pyLower (chunkText (m0 :: ms'))) p0.2)
  refine ⟨(List.foldl pyMaxStep
      (p0.1, categoryScore (pyLower (chunkText (m0 :: ms'))) p0.2)
      (ps.map (fun p => (p.1, categoryScore (pyLower (chunkText (m0 :: ms'))) p.2)))).2,
    pre, post, ?_, hpre, ?_⟩
  · rw [List.map_cons, hdec, hcl]
  · rw [List.map_cons]
    exact hall

/-- C4 (amended): with the default semantic patterns, the empty message list
classifies as `"task"`; a non-empty message list classifies as the category
with the highest pattern-match count over the concatenated lower-cased text,
ties broken by category declaration order — so when no pattern of any
category matches, the all-zero tie is won by `"question"`, the first declared
category, not by `"task"`. -/
theorem C4_classification (ms : List Msg) :
    (ms = [] → classifySemanticType defaultSemanticPatterns ms = "task") ∧
    (ms ≠ [] → ∃ sc pre post,
      defaultSemanticPatterns.map
          (fun p => (p.1, categoryScore (pyLower (chunkText ms)) p.2)) =
        pre ++ (classifySemanticType defaultSemanticPatterns ms, sc) :: post ∧
      (∀ x ∈ pre, x.2 < sc) ∧
      (∀ x ∈ defaultSemanticPatterns.map
          (fun p => (p.1, categoryScore (pyLower (chunkText ms)) p.2)), x.2 ≤ sc)) ∧
    (ms ≠ [] →
      (∀ p ∈ defaultSemanticPatterns, categoryScore (pyLower (chunkText ms)) p.2 = 0) →
      classifySemanticType defaultSemanticPatterns ms = "question") := by
  refine ⟨?_, ?_, ?_⟩
  · rintro rfl
    rfl
  · intro hms
    obtain ⟨m0, ms', rfl⟩ := List.exists_cons_of_ne_nil hms
    exact classify_argmax defaultSemanticPatterns _ _ rfl m0 ms'
  · intro hms hzero
    obtain ⟨m0, ms', rfl⟩ := List.exists_cons_of_ne_nil hms
    obtain ⟨sc, pre, post, hdec, hpre, hall⟩ :=
      classify_argmax defaultSemanticPatterns _ _ rfl m0 ms'
    have hsc : sc = 0 := by
      have hmem : (classifySemanticType defaultSemanticPatterns (m0 :: ms'), sc) ∈
          defaultSemanticPatterns.map
            (fun p => (p.1, categoryScore (pyLower (chunkText (m0 :: ms'))) p.2)) := by
        rw [hdec]
        exact List.mem_append_right _ (List.mem_cons_self _ _)
      obtain ⟨p, hp, hpe⟩ := List.mem_map.mp hmem
      have := hzero p hp
      have h2 := congrArg Prod.snd hpe
      simp only at h2
      omega
    have hprenil : pre = [] := by
      cases pre with
      | nil => rfl
      | cons a pre' =>
        exfalso
        have hamem : a ∈ defaultSemanticPatterns.map
            (fun p => (p.1, categoryScore (pyLower (chunkText (m0 :: ms'))) p.2)) := by
          rw [hdec]
          exact List.mem_append_left _ (List.mem_cons_self a pre')
        obtain ⟨p, hp, hpe⟩ := List.mem_map.mp hamem
        have hz := hzero p hp
        have hlt := hpre a (List.mem_cons_self a pre')
        have h2 := congrArg Prod.snd hpe
        simp only at h2
        omega
    rw [hprenil, List.nil_append] at hdec
    have hhead := congrArg (fun l => l.head?) hdec
    simp only [defaultSemanticPatterns, List.map_cons, List.head?] at hhead
    have := congrArg (fun o => Option.map Prod.fst o) hhead
    simpa using this.symm

/-- Witness for C4: the empty message list classifies as `"task"`. -/
theorem C4_classification_witness :
    classifySemanticType defaultSemanticPatterns [] = "task" :=
  (C4_classification []).1 rfl

/-- Counterexample to C4 as stated: a message list in which no pattern of any
category matches classifies as `"question"` (the first declared category wins
the all-zero tie), not as `"task"`. -/
theorem C4_counterexample :
    classifySemanticType defaultSemanticPatterns [⟨"user", "zzz", none⟩] = "question" ∧
    ("question" : String) ≠ "task" := by
  constructor
  · decide
  · decide

/-- C2 (code evaluation at the failing input): on twenty identical messages
under the default configuration the chunker produces chunks `[0,10)` and
`[10,20)`, and assigns importance `1.0` to the EARLIER chunk and `0.75` to
the LATER one — the earlier chunk's importance is not ≤ the later one's,
contradicting both the claim and the source's own comment that more recent
chunks are more important. -/
theorem C2_importance_eval :
    (chunk defaultChunkCfg msgsTwenty "t" ts0).map (fun c => (c.startIdx, c.endIdx)) =
      [(0, 10), (10, 20)] ∧
    (chunk defaultChunkCfg msgsTwenty "t" ts0).map (fun c => c.importance) =
      [calculateImportance 0 20, calculateImportance 10 20] ∧
    calculateImportance 0 20 = 1 ∧
    calculateImportance 10 20 = 3/4 ∧
    ¬ (calculateImportance 0 20 ≤ calculateImportance 10 20) := by
  refine ⟨by decide, by rfl, ?_, ?_, ?_⟩
  · norm_num [calculateImportance]
  · norm_num [calculateImportance]
  · norm_num [calculateImportance]

/-- Counterexample to C1 as stated: on a single-message input with the
default configuration (`min_chunk_size = 3`), the lone chunk's end index is
3, not `len(messages) = 1`. -/
theorem C1_counterexample :
    (chunk defaultChunkCfg msgsOne "t" ts0).map (fun c => (c.startIdx, c.endIdx)) = [(0, 3)] ∧
    msgsOne.length = 1 ∧
    ¬ ((3 : Nat) = 1) := by
  refine ⟨by decide, by decide, by decide⟩

/-- Counterexample to C3 as stated: on `msgsSnap` (eleven messages whose
second message classifies differently from the first) with the default
configuration, boundary snapping truncates the first chunk to size 1, below
`min_chunk_size = 3`, even though that chunk is not the last one. -/
theorem C3_counterexample :
    (chunk defaultChunkCfg msgsSnap "t" ts0).map (fun c => (c.startIdx, c.endIdx)) =
      [(0, 1), (1, 11)] ∧
    defaultChunkCfg.minChunkSize = 3 ∧
    ¬ (3 ≤ 1 - 0) := by
  refine ⟨by decide, by decide, by decide⟩

theorem snapScan_mem (cfg : ChunkCfg) (messages : List Msg) (startIdx : Nat) (ty : String) :
    ∀ (js : List Nat) (size : Nat),
      snapScan cfg messages startIdx ty js size ∈ size :: js.map (fun j => j - startIdx) := by
  intro js
  induction js with
  | nil =>
    intro size
    simp [snapScan]
  | cons j rest ih =>
    intro size
    simp only [snapScan, List.map_cons]
    by_cases h : classifySemanticType cfg.semanticPatterns (pySlice messages j (j + 1)) ≠ ty
    · rw [if_pos h]
      by_cases h2 : cfg.minChunkSize ≤ j - startIdx
      · rw [if_pos h2]
        exact List.mem_cons_of_mem _ (List.mem_cons_self _ _)
      · rw [if_neg h2]
        rcases List.mem_cons.mp (ih (j - startIdx)) with he | he
        · rw [he]
          exact List.mem_cons_of_mem _ (List.mem_cons_self _ _)
        · exact List.mem_cons_of_mem _ (List.mem_cons_of_mem _ he)
    · rw [if_neg h]
      rcases List.mem_cons.mp (ih size) with he | he
      · rw [he]
        exact List.mem_cons_self _ _
      · exact List.mem_cons_of_mem _ (List.mem_cons_of_mem _ he)

theorem determineChunkSize_cases (cfg : ChunkCfg) (messages : List Msg) (i : Nat) :
    determineChunkSize cfg messages i =
        min cfg.maxChunkSize (max cfg.minChunkSize (messages.length - i)) ∨
    ∃ j, i + 1 ≤ j ∧
      j < min (i + min cfg.maxChunkSize (max cfg.minChunkSize (messages.length - i)))
        messages.length ∧
      determineChunkSize cfg messages i = j - i := by
  simp only [determineChunkSize]
  split
  · next h =>
    rcases List.mem_cons.mp (snapScan_mem cfg messages i
        (classifySemanticType cfg.semanticPatterns (pySlice messages i (i + 1)))
        (List.range' (i + 1)
          (min (i + min cfg.maxChunkSize (max cfg.minChunkSize (messages.length - i)))
              messages.length - (i + 1)))
        (min cfg.maxChunkSize (max cfg.minChunkSize (messages.length - i)))) with he | he
    · left
      exact he
    · right
      obtain ⟨j, hj, he⟩ := List.mem_map.mp he
      have hjr := List.mem_range'_1.mp hj
      exact ⟨j, hjr.1, by omega, he.symm⟩
  · next h =>
    left
    rfl

theorem determineChunkSize_pos (cfg : ChunkCfg) (messages : List Msg) (i : Nat)
    (h1 : 1 ≤ cfg.minChunkSize) (h2 : cfg.minChunkSize ≤ cfg.maxChunkSize) :
    1 ≤ determineChunkSize cfg messages i := by
  rcases determineChunkSize_cases cfg messages i with hc | ⟨j, hj1, hj2, hc⟩ <;> omega

theorem determineChunkSize_le_max (cfg : ChunkCfg) (messages : List Msg) (i : Nat) :
    determineChunkSize cfg messages i ≤ cfg.maxChunkSize := by
  rcases determineChunkSize_cases cfg messages i with hc | ⟨j, hj1, hj2, hc⟩ <;> omega

theorem determineChunkSize_last (cfg : ChunkCfg) (messages : List Msg) (i : Nat)
    (hi : i < messages.length) (h2 : cfg.minChunkSize ≤ cfg.maxChunkSize)
    (hlast : messages.length ≤ i + determineChunkSize cfg messages i) :
    i + determineChunkSize cfg messages i = max messages.length (i + cfg.minChunkSize) := by
  rcases determineChunkSize_cases cfg messages i with hc | ⟨j, hj1, hj2, hc⟩ <;> omega

theorem chunkAux_tiles (cfg : ChunkCfg) (messages : List Msg) (threadId : String)
    (now : Timestamp) (h1 : 1 ≤ cfg.minChunkSize) (h2 : cfg.minChunkSize ≤ cfg.maxChunkSize) :
    ∀ fuel i cnt, messages.length ≤ i + fuel →
      TilesFrom messages.length cfg.minChunkSize i
        (chunkAux cfg messages threadId now fuel i cnt) ∧
      (chunkAux cfg messages threadId now fuel i cnt).flatMap (fun c => c.messages) =
        messages.drop i := by
  intro fuel
  induction fuel with
  | zero =>
    intro i cnt hfuel
    constructor
    · simp only [chunkAux, TilesFrom]
      omega
    · simp only [chunkAux, List.flatMap_nil]
      exact (List.drop_eq_nil_of_le (by omega)).symm
  | succ fuel ih =>
    intro i cnt hfuel
    by_cases hi : i < messages.length
    · have hpos := determineChunkSize_pos cfg messages i h1 h2
      have hrec := ih (i + determineChunkSize cfg messages i) (cnt + 1) (by omega)
      simp only [chunkAux, if_pos hi]
      constructor
      · refine ⟨rfl, Nat.lt_add_of_pos_right hpos, ?_, hrec.1⟩
        intro hnil
        have hle : messages.length ≤ i + determineChunkSize cfg messages i := by
          have htf := hrec.1
          rw [hnil] at htf
          simpa [TilesFrom] using htf
        exact determineChunkSize_last cfg messages i hi h2 hle
      · simp only [List.flatMap_cons]
        rw [hrec.2]
        simp only [pySlice, Nat.add_sub_cancel_left]
        rw [← List.drop_drop]
        exact List.take_append_drop _ _
    · simp only [chunkAux, if_neg hi]
      constructor
      · simp only [TilesFrom]
        omega
      · simp only [List.flatMap_nil]
        exact (List.drop_eq_nil_of_le (by omega)).symm

/-- C1 (amended): for every message sequence and configuration with
`1 ≤ min_chunk_size ≤ max_chunk_size`, the chunks tile the sequence from
index 0 with no gaps or overlaps: the first chunk starts at 0, each chunk
ends where the next starts, every chunk is non-empty, the chunk message
slices concatenate back to the whole sequence, and the empty sequence yields
the empty chunk list (and conversely); however the last chunk's end index is
`max(len(messages), last_start + min_chunk_size)`, which exceeds
`len(messages)` exactly when the final remainder is shorter than
`min_chunk_size`. -/
theorem C1_chunk_partition (cfg : ChunkCfg) (messages : List Msg) (threadId : String)
    (now : Timestamp) (h1 : 1 ≤ cfg.minChunkSize) (h2 : cfg.minChunkSize ≤ cfg.maxChunkSize) :
    TilesFrom messages.length cfg.minChunkSize 0 (chunk cfg messages threadId now) ∧
    (chunk cfg messages threadId now).flatMap (fun c => c.messages) = messages ∧
    (messages = [] ↔ chunk cfg messages threadId now = []) := by
  have h := chunkAux_tiles cfg messages threadId now h1 h2 messages.length 0 0 (by omega)
  have hch : chunk cfg messages threadId now =
      chunkAux cfg messages threadId now messages.length 0 0 := rfl
  refine ⟨by rw [hch]; exact h.1, by rw [hch]; simpa using h.2, ?_, ?_⟩
  · rintro rfl
    rfl
  · intro hnil
    rw [hch] at hnil
    have htf := h.1
    rw [hnil] at htf
    simp only [TilesFrom] at htf
    exact List.eq_nil_of_length_eq_zero (by omega)

/-- Witness for C1 at the default configuration and a one-message input. -/
theorem C1_chunk_partition_witness :
    TilesFrom msgsOne.length defaultChunkCfg.minChunkSize 0
      (chunk defaultChunkCfg msgsOne "t" ts0) ∧
    (chunk defaultChunkCfg msgsOne "t" ts0).flatMap (fun c => c.messages) = msgsOne ∧
    (msgsOne = [] ↔ chunk defaultChunkCfg msgsOne "t" ts0 = []) :=
  C1_chunk_partition defaultChunkCfg msgsOne "t" ts0 (by decide) (by decide)

theorem chunkAux_size_bounds (cfg : ChunkCfg) (messages : List Msg) (threadId : String)
    (now : Timestamp) (h1 : 1 ≤ cfg.minChunkSize) (h2 : cfg.minChunkSize ≤ cfg.maxChunkSize) :
    ∀ fuel i cnt, ∀ c ∈ chunkAux cfg messages threadId now fuel i cnt,
      1 ≤ c.endIdx - c.startIdx ∧ c.endIdx - c.startIdx ≤ cfg.maxChunkSize := by
  intro fuel
  induction fuel with
  | zero =>
    intro i cnt c hc
    simp [chunkAux] at hc
  | succ fuel ih =>
    intro i cnt c hc
    by_cases hi : i < messages.length
    · simp only [chunkAux, if_pos hi] at hc
      rcases List.mem_cons.mp hc with rfl | hc
    
      · have hpos := determineChunkSize_pos cfg messages i h1 h2
        have hle := determineChunkSize_le_max cfg messages i
        dsimp only
        omega
      · exact ih _ _ c hc
    · simp [chunkAux, if_neg hi] at hc

/-- C3 (amended): for every message sequence and configuration with
`1 ≤ min_chunk_size ≤ max_chunk_size`, every chunk — last one included —
has size between 1 and `max_chunk_size` inclusive; the `min_chunk_size`
lower bound of the claim can fail for a non-last chunk, because boundary
snapping records the offset of each classification divergence before
checking it against `min_chunk_size`, and keeps the last such offset when no
divergence at an offset `≥ min_chunk_size` ends the scan. -/
theorem C3_chunk_size_bounds (cfg : ChunkCfg) (messages : List Msg) (threadId : String)
    (now : Timestamp) (h1 : 1 ≤ cfg.minChunkSize) (h2 : cfg.minChunkSize ≤ cfg.maxChunkSize) :
    ∀ c ∈ chunk cfg messages threadId now,
      1 ≤ c.endIdx - c.startIdx ∧ c.endIdx - c.startIdx ≤ cfg.maxChunkSize :=
  fun c hc =>
    chunkAux_size_bounds cfg messages threadId now h1 h2 messages.length 0 0 c hc

/-- Witness for C3: the bounds hold for the first chunk produced on a
concrete one-message input under the default configuration. -/
theorem C3_chunk_size_bounds_witness :
    1 ≤ ((chunk defaultChunkCfg msgsOne "t" ts0).headI.endIdx -
        (chunk defaultChunkCfg msgsOne "t" ts0).headI.startIdx) ∧
    ((chunk defaultChunkCfg msgsOne "t" ts0).headI.endIdx -
        (chunk defaultChunkCfg msgsOne "t" ts0).headI.startIdx) ≤
      defaultChunkCfg.maxChunkSize := by
  have hlen : (chunk defaultChunkCfg msgsOne "t" ts0).length = 1 := by decide
  have hne : chunk defaultChunkCfg msgsOne "t" ts0 ≠ [] := by
    intro h
    rw [h] at hlen
    simp at hlen
  obtain ⟨c, rest, hL⟩ := List.exists_cons_of_ne_nil hne
  have hmem : (chunk defaultChunkCfg msgsOne "t" ts0).headI ∈
      chunk defaultChunkCfg msgsOne "t" ts0 := by
    rw [hL]
    exact List.mem_cons_self _ _
  exact C3_chunk_size_bounds defaultChunkCfg msgsOne "t" ts0 (by decide) (by decide) _ hmem

theorem calculateImportance_pos (idx total : Nat) : 0 < calculateImportance idx total := by
  unfold calculateImportance
  have hx : (0 : ℚ) ≤ (((total - idx : Nat) : ℚ) / (total : ℚ)) :=
    div_nonneg (Nat.cast_nonneg _) (Nat.cast_nonneg _)
  nlinarith

theorem chunkAux_importance_pos (cfg : ChunkCfg) (messages : List Msg) (threadId : String)
    (now : Timestamp) :
    ∀ fuel i cnt, ∀ c ∈ chunkAux cfg messages threadId now fuel i cnt, 0 < c.importance := by
  intro fuel
  induction fuel with
  | zero =>
    intro i cnt c hc
    simp [chunkAux] at hc
  | succ fuel ih =>
    intro i cnt c hc
    by_cases hi : i < messages.length
    · simp only [chunkAux, if_pos hi] at hc
      rcases List.mem_cons.mp hc with rfl | hc
      · exact calculateImportance_pos _ _
      · exact ih _ _ c hc
    · simp [chunkAux, if_neg hi] at hc

theorem chunk_ne_nil (cfg : ChunkCfg) (messages : List Msg) (threadId : String)
    (now : Timestamp) (hm : messages ≠ []) : chunk cfg messages threadId now ≠ [] := by
  obtain ⟨m, ms, rfl⟩ := List.exists_cons_of_ne_nil hm
  unfold chunk
  simp [chunkAux]

/-- C6: `evaluate_thread` computes per chunk
`credit_assigned = importance * reconstruction_quality` and
`overall_score = 0.5*credit + 0.3*temporal_relevance + 0.2*reconstruction`,
and aggregates `100 * (Σ credit / Σ importance)` at the thread level, with
`([], 0.0)` on the empty input. -/
theorem C6_evaluate_thread (cfg : ChunkCfg) (paomContext : Option String) (messages : List Msg)
    (threadId : String) (now : Timestamp)
    (h1 : 1 ≤ cfg.minChunkSize) (h2 : cfg.minChunkSize ≤ cfg.maxChunkSize) :
    evaluateThread cfg paomContext [] threadId now = ([], 0) ∧
    (evaluateThread cfg paomContext messages threadId now).1 =
      (chunk cfg messages threadId now).map (fun c =>
        { chunkId := c.chunkId
          creditAssigned := c.importance * measureReconstructionQuality paomContext c
          reconstructionQuality := measureReconstructionQuality paomContext c
          temporalRelevance := temporalRelevance c
          overallScore := (1/2) * (c.importance * measureReconstructionQuality paomContext c) +
            (3/10) * temporalRelevance c +
            (1/5) * measureReconstructionQuality paomContext c }) ∧
    (evaluateThread cfg paomContext messages threadId now).2 =
      (if messages = [] then 0
       else 100 * (((evaluateThread cfg paomContext messages threadId now).1.map
            (fun r => r.creditAssigned)).sum /
          ((chunk cfg messages threadId now).map (fun c => c.importance)).sum)) := by
  refine ⟨rfl, ?_, ?_⟩
  · show (chunk cfg messages threadId now).map (evaluateChunk paomContext) = _
    refine List.map_congr_left ?_
    intro c _
    simp only [evaluateChunk, ChunkEvaluationResult.mk.injEq, true_and, and_true]
    ring
  · by_cases hm : messages = []
    · subst hm
      rfl
    · rw [if_neg hm]
      have hchne := chunk_ne_nil cfg messages threadId now hm
      have hipos : 0 < ((chunk cfg messages threadId now).map (fun c => c.importance)).sum := by
        refine List.sum_pos _ ?_ ?_
        · intro x hx
          obtain ⟨c, hc, rfl⟩ := List.mem_map.mp hx
          exact chunkAux_importance_pos cfg messages threadId now messages.length 0 0 c hc
        · intro h
          exact hchne (List.map_eq_nil_iff.mp h)
      show calculateOverallScore ((chunk cfg messages threadId now).map (evaluateChunk paomContext))
          (chunk cfg messages threadId now) = _
      unfold calculateOverallScore
      rw [if_neg ?hne]
      case hne =>
        intro h
        rw [List.isEmpty_iff] at h
        exact hchne (List.map_eq_nil_iff.mp h)
      rw [if_pos hipos]
      show ((((chunk cfg messages threadId now).map (evaluateChunk paomContext)).map
            (fun r => r.creditAssigned)).sum /
          ((chunk cfg messages threadId now).map (fun c => c.importance)).sum) * 100 =
        100 * ((((chunk cfg messages threadId now).map (evaluateChunk paomContext)).map
            (fun r => r.creditAssigned)).sum /
          ((chunk cfg messages threadId now).map (fun c => c.importance)).sum)
      ring

/-- Witness for C6: the degenerate case at the default configuration,
`evaluate_thread([]) = ([], 0.0)`. -/
theorem C6_evaluate_thread_witness :
    evaluateThread defaultChunkCfg none [] "t" ts0 = ([], 0) :=
  (C6_evaluate_thread defaultChunkCfg none [] "t" ts0 (by decide) (by decide)).1
